import Mathlib

/-!
Shallow embedding of the virtual-spreadsheet engine of `src/script.js`
(class `VirtualExcelSimulator`).

Modelling conventions:
* Row/column sizes are pixel numbers, modelled as `Int` (JS numbers used
  integrally throughout the widget).
* The sparse cell store `this.data` is a JS `Map` keyed by the string
  `"row-col"`; since both components are decimal naturals the key format is
  injective, so it is modelled as an insertion-ordered association list over
  `(row, col)` pairs.  `Map.get`/`Map.set`/`Map.delete` become `mapGet`,
  `mapSet`, `mapDelete`.
* The JS `Set`s `this.modifiedCells` and `this.selectedCells` iterate in
  insertion order and `Array.from(set)[0]` is the first inserted element;
  they are modelled as insertion-ordered lists with dedup on add (`setAdd`).
* The cached `this.rowOffsets` / `this.columnOffsets` arrays are recomputed
  by `calculateOffsets()` immediately after every size-array mutation (the
  ordering contract of the spec), so they are kept derived: wherever the
  code reads them they equal `calculateOffsets` of the current size array.
-/

/-- Option `defaultRowHeight: 40` of the constructor (script.js:10). -/
def defaultRowHeight : Int := 40

/-- Option `defaultColumnWidth: 120` of the constructor (script.js:11). -/
def defaultColumnWidth : Int := 120

/-- Option `minRows` as passed at construction (script.js:14, 1330). -/
def minRows : Nat := 100

/-- Option `minColumns` as passed at construction (script.js:15, 1331). -/
def minColumns : Nat := 26

/-- Option `maxRows: 10000` of the constructor (script.js:16). -/
def maxRows : Nat := 10000

/-- Option `maxColumns: 1000` of the constructor (script.js:17). -/
def maxColumns : Nat := 1000

/-- Cumulative-offset loop of `calculateOffsets` (script.js:142-154): the
table starts as `[start]` and each size is pushed on top of the running
total (`offsets.push(offsets[i] + sizes[i])`). -/
def offsetsFrom (start : Int) : List Int → List Int
  | [] => [start]
  | h :: t => start :: offsetsFrom (start + h) t

/-- `calculateOffsets` (script.js:142-154): rebuilds the cumulative offset
table from scratch, `offsets[0] = 0`, `offsets[i+1] = offsets[i] + sizes[i]`. -/
def calculateOffsets (sizes : List Int) : List Int :=
  offsetsFrom 0 sizes

/-- Binary-search loop shared by `findRowByOffset` (script.js:203-214) and
`findColumnByOffset` (script.js:219-230): while `left < right`, test the
table at `mid = Math.floor((left + right) / 2)`; `table[mid] <= offset`
moves `left` to `mid + 1`, otherwise `right` moves to `mid`. -/
def bsearchGo (t : List Int) (p : Int) (left right : Nat) : Nat :=
  if _h : left < right then
    if t.getD ((left + right) / 2) 0 ≤ p then bsearchGo t p ((left + right) / 2 + 1) right
    else bsearchGo t p left ((left + right) / 2)
  else left
termination_by right - left
decreasing_by
  all_goals omega

/-- `findRowByOffset` (script.js:203-214).  The loop runs on
`left = 0, right = rowOffsets.length - 1` and the method returns
`Math.max(0, left - 1)`; natural-number subtraction truncates at zero, which
is exactly that clamping. -/
def findRowByOffset (rowOffsets : List Int) (offset : Int) : Nat :=
  bsearchGo rowOffsets offset 0 (rowOffsets.length - 1) - 1

/-- `findColumnByOffset` (script.js:219-230), identical to `findRowByOffset`
but reading `columnOffsets`. -/
def findColumnByOffset (columnOffsets : List Int) (offset : Int) : Nat :=
  bsearchGo columnOffsets offset 0 (columnOffsets.length - 1) - 1

/-- Logical cell coordinate `(row, col)`; the JS code keys maps and sets by
the string `"row-col"`, which is in bijection with the pair. -/
abbrev CellKey := Nat × Nat

/-- Lookup in the `this.data` JS `Map` (`data.get(cellKey)`). -/
def mapGet : List (CellKey × String) → CellKey → Option String
  | [], _ => none
  | p :: d, k => if p.1 = k then some p.2 else mapGet d k

/-- `data.set(cellKey, value)`: overwrite in place when the key is present
(keeping its position, as a JS `Map` does), otherwise append. -/
def mapSet (d : List (CellKey × String)) (k : CellKey) (v : String) : List (CellKey × String) :=
  if (mapGet d k).isSome then d.map (fun p => if p.1 = k then (k, v) else p)
  else d ++ [(k, v)]

/-- `data.delete(cellKey)`. -/
def mapDelete (d : List (CellKey × String)) (k : CellKey) : List (CellKey × String) :=
  d.filter (fun p => !(p.1 == k))

/-- `set.add(cellKey)` on a JS `Set`: no-op when already present, otherwise
append (JS `Set`s iterate in insertion order). -/
def setAdd (s : List CellKey) (k : CellKey) : List CellKey :=
  if k ∈ s then s else s ++ [k]

/-- `set.delete(cellKey)` on a JS `Set`. -/
def setDelete (s : List CellKey) (k : CellKey) : List CellKey :=
  s.filter (fun x => !(x == k))

/-- The mutable state of the widget that the verified claims range over:
size arrays, sparse store, modified set, selection, clipboard, and the
cached visible end indices read by `checkAndExpandGrid`. -/
structure GridState where
  rowHeights : List Int
  columnWidths : List Int
  data : List (CellKey × String)
  modifiedCells : List CellKey
  selectedCells : List CellKey
  clipboard : Option (List (CellKey × String))
  visibleEndRow : Nat
  visibleEndColumn : Nat
deriving DecidableEq

/-- State right after the constructor (script.js:22-41, 1329-1332):
`minRows` rows of the default height, `minColumns` columns of the default
width, empty store / modified set / selection, no clipboard. -/
def initState : GridState where
  rowHeights := List.replicate minRows defaultRowHeight
  columnWidths := List.replicate minColumns defaultColumnWidth
  data := []
  modifiedCells := []
  selectedCells := []
  clipboard := none
  visibleEndRow := 0
  visibleEndColumn := 0

/-- `selectRange` (script.js:776-789): clear the selection and fill the
inclusive rectangle between the min/max of the two corner coordinates,
iterating rows outer, columns inner (so the produced insertion order is
row-major from the top-left corner). -/
def selectRange (startRow startCol endRow endCol : Nat) : List CellKey :=
  let minRow := min startRow endRow
  let maxRow := max startRow endRow
  let minCol := min startCol endCol
  let maxCol := max startCol endCol
  (List.range' minRow (maxRow - minRow + 1)).flatMap
    (fun row => (List.range' minCol (maxCol - minCol + 1)).map (fun col => (row, col)))

/-- `selectCell` (script.js:744-771).  Without ctrl/shift the selection is
cleared first; with shift and a non-empty selection the code reads
`Array.from(this.selectedCells)[0]` (the first inserted element) and calls
`selectRange` from it; otherwise the cell is added to the selection.
Header-element styling is rendering-only and not part of the state. -/
def selectCell (st : GridState) (row col : Nat) (ctrlKey shiftKey : Bool) : GridState :=
  let sel := if !ctrlKey && !shiftKey then [] else st.selectedCells
  if shiftKey && !sel.isEmpty then
    match sel.head? with
    | some (startRow, startCol) => { st with selectedCells := selectRange startRow startCol row col }
    | none => { st with selectedCells := sel }
  else { st with selectedCells := setAdd sel (row, col) }

/-- `selectRow` (script.js:828-849): optionally clear, then add every column
of the current extent for the given row. -/
def selectRow (st : GridState) (rowIndex : Nat) (ctrlKey : Bool) : GridState :=
  let sel := if ctrlKey then st.selectedCells else []
  { st with selectedCells :=
      (List.range st.columnWidths.length).foldl (fun s col => setAdd s (rowIndex, col)) sel }

/-- `selectColumn` (script.js:802-823). -/
def selectColumn (st : GridState) (colIndex : Nat) (ctrlKey : Bool) : GridState :=
  let sel := if ctrlKey then st.selectedCells else []
  { st with selectedCells :=
      (List.range st.rowHeights.length).foldl (fun s row => setAdd s (row, colIndex)) sel }

/-- `finishEditing` (script.js:890-913), restricted to its state effect: a
non-empty editor value is stored and the cell flagged modified, an empty
value deletes both (JS `if (value)` treats `""` as false). -/
def finishEditing (st : GridState) (row col : Nat) (value : String) : GridState :=
  if value ≠ "" then
    { st with data := mapSet st.data (row, col) value
              modifiedCells := setAdd st.modifiedCells (row, col) }
  else
    { st with data := mapDelete st.data (row, col)
              modifiedCells := setDelete st.modifiedCells (row, col) }

/-- `clearSelectedCells` (script.js:981-987): delete data and modified flag
for every selected coordinate. -/
def clearSelectedCells (st : GridState) : GridState :=
  { st with data := st.selectedCells.foldl (fun d k => mapDelete d k) st.data
            modifiedCells := st.selectedCells.foldl (fun m k => setDelete m k) st.modifiedCells }

/-- `copySelectedCells` (script.js:1053-1061): snapshot every selected
coordinate with its value (`data.get(cellKey) || ''`). -/
def copySelectedCells (st : GridState) : GridState :=
  { st with clipboard := some (st.selectedCells.map (fun k => (k, (mapGet st.data k).getD ""))) }

/-- `pasteClipboard` (script.js:1066-1085).  The code destructures each
entry's original coordinate into `origRow`/`origCol` but never uses them:
it sets `newRow = startRow; newCol = startCol`, so every non-empty clipboard
value is written to the anchor cell (the selection's first element). -/
def pasteClipboard (st : GridState) : GridState :=
  match st.clipboard with
  | none => st
  | some clip =>
    match st.selectedCells.head? with
    | none => st
    | some (startRow, startCol) =>
      clip.foldl (fun acc item =>
        if item.2 ≠ "" then
          { acc with data := mapSet acc.data (startRow, startCol) item.2
                     modifiedCells := setAdd acc.modifiedCells (startRow, startCol) }
        else acc) st

/-- Remap of a key when a row is spliced in at `i` (script.js:1151-1158):
rows at or after the insertion point shift up by one. -/
def shiftRowUp (i : Nat) (k : CellKey) : CellKey :=
  if k.1 ≥ i then (k.1 + 1, k.2) else k

/-- Remap of a key when row `i` is deleted (script.js:1192-1202): rows after
the deleted one shift down by one. -/
def shiftRowDown (i : Nat) (k : CellKey) : CellKey :=
  if k.1 > i then (k.1 - 1, k.2) else k

/-- Column analogue of `shiftRowUp` (script.js:1242-1249). -/
def shiftColUp (i : Nat) (k : CellKey) : CellKey :=
  if k.2 ≥ i then (k.1, k.2 + 1) else k

/-- Column analogue of `shiftRowDown` (script.js:1283-1293). -/
def shiftColDown (i : Nat) (k : CellKey) : CellKey :=
  if k.2 > i then (k.1, k.2 - 1) else k

/-- The `newData = new Map(); this.data.forEach(...)` rebuild pattern of
`insertRow` / `deleteRow` / `insertColumn` / `deleteColumn`: each entry is
either dropped (`none`) or written into the fresh map with a remapped key. -/
def mapRebuild (g : CellKey × String → Option (CellKey × String))
    (d : List (CellKey × String)) : List (CellKey × String) :=
  d.foldl (fun acc p => match g p with | some q => mapSet acc q.1 q.2 | none => acc) []

/-- The matching `newModifiedCells = new Set(); modifiedCells.forEach(...)`
rebuild pattern. -/
def setRebuild (g : CellKey → Option CellKey) (s : List CellKey) : List CellKey :=
  s.foldl (fun acc k => match g k with | some k' => setAdd acc k' | none => acc) []

/-- JS `array.splice(i, 0, x)`: insert `x` at index `i` (at the end when
`i` is past the end). -/
def spliceInsert (l : List Int) (i : Nat) (x : Int) : List Int :=
  l.take i ++ x :: l.drop i

/-- JS `array.splice(i, 1)`: remove the element at index `i` (no-op when
`i` is past the end). -/
def spliceDelete (l : List Int) (i : Nat) : List Int :=
  l.take i ++ l.drop (i + 1)

/-- `addRows` (script.js:259-266): push `count` default-height rows. -/
def addRows (st : GridState) (count : Nat) : GridState :=
  { st with rowHeights := st.rowHeights ++ List.replicate count defaultRowHeight }

/-- `addColumns` (script.js:271-278): push `count` default-width columns. -/
def addColumns (st : GridState) (count : Nat) : GridState :=
  { st with columnWidths := st.columnWidths ++ List.replicate count defaultColumnWidth }

/-- `checkAndExpandGrid` (script.js:235-254): grow by a batch of 50 rows when
the visible end row is within 10 of the materialized extent and the extent is
below `maxRows`; symmetrically 20 columns within 5 of the extent below
`maxColumns`.  The JS comparisons are on signed numbers, hence the `Int`
casts. -/
def checkAndExpandGrid (st : GridState) : GridState :=
  let st1 :=
    if (st.visibleEndRow : Int) ≥ (st.rowHeights.length : Int) - 10 ∧
        st.rowHeights.length < maxRows then addRows st 50
    else st
  if (st1.visibleEndColumn : Int) ≥ (st1.columnWidths.length : Int) - 5 ∧
      st1.columnWidths.length < maxColumns then addColumns st1 20
  else st1

/-- `insertRow` (script.js:1146-1182): `position === 'above'` inserts at the
selected index, otherwise below it; data and modified set are rebuilt with
rows at or after the insertion point shifted up, and a default-height entry
is spliced into `rowHeights`.  The selection is left untouched. -/
def insertRow (st : GridState) (rowIndex : Nat) (above : Bool) : GridState :=
  let insertIndex := if above then rowIndex else rowIndex + 1
  { st with
    data := mapRebuild (fun p => some (shiftRowUp insertIndex p.1, p.2)) st.data
    modifiedCells := setRebuild (fun k => some (shiftRowUp insertIndex k)) st.modifiedCells
    rowHeights := spliceInsert st.rowHeights insertIndex defaultRowHeight }

/-- `deleteRow` (script.js:1187-1232): refuse when a single row remains;
otherwise drop the deleted row's entries, shift later rows down, splice the
height out, and clear the selection. -/
def deleteRow (st : GridState) (rowIndex : Nat) : GridState :=
  if st.rowHeights.length ≤ 1 then st
  else
    { st with
      data := mapRebuild
        (fun p => if p.1.1 = rowIndex then none else some (shiftRowDown rowIndex p.1, p.2)) st.data
      modifiedCells := setRebuild
        (fun k => if k.1 = rowIndex then none else some (shiftRowDown rowIndex k)) st.modifiedCells
      rowHeights := spliceDelete st.rowHeights rowIndex
      selectedCells := [] }

/-- `insertColumn` (script.js:1237-1273), column analogue of `insertRow`
(`position === 'left'` inserts at the selected index). -/
def insertColumn (st : GridState) (colIndex : Nat) (leftOf : Bool) : GridState :=
  let insertIndex := if leftOf then colIndex else colIndex + 1
  { st with
    data := mapRebuild (fun p => some (shiftColUp insertIndex p.1, p.2)) st.data
    modifiedCells := setRebuild (fun k => some (shiftColUp insertIndex k)) st.modifiedCells
    columnWidths := spliceInsert st.columnWidths insertIndex defaultColumnWidth }

/-- `deleteColumn` (script.js:1278-1323), column analogue of `deleteRow`. -/
def deleteColumn (st : GridState) (colIndex : Nat) : GridState :=
  if st.columnWidths.length ≤ 1 then st
  else
    { st with
      data := mapRebuild
        (fun p => if p.1.2 = colIndex then none else some (shiftColDown colIndex p.1, p.2)) st.data
      modifiedCells := setRebuild
        (fun k => if k.2 = colIndex then none else some (shiftColDown colIndex k)) st.modifiedCells
      columnWidths := spliceDelete st.columnWidths colIndex
      selectedCells := [] }

/-- Row resize of `performResize` (script.js:706-722): the indexed height is
overwritten with the drag position clamped to at least 20 pixels. -/
def resizeRow (st : GridState) (index : Nat) (px : Int) : GridState :=
  { st with rowHeights := st.rowHeights.set index (max 20 px) }

/-- Column resize of `performResize` (script.js:689-704), clamped to at
least 30 pixels. -/
def resizeColumn (st : GridState) (index : Nat) (px : Int) : GridState :=
  { st with columnWidths := st.columnWidths.set index (max 30 px) }

/-- `regenerateTable` (script.js:1090-1123): with both requested counts in
range `(0, 10000] x (0, 1000]`, clear all data, modified flags, selection and
clipboard, and reset the size arrays to the requested counts (floored at the
configured minimums); otherwise do nothing. -/
def regenerateTable (st : GridState) (newRows newCols : Int) : GridState :=
  if 0 < newRows ∧ 0 < newCols ∧ newRows ≤ 10000 ∧ newCols ≤ 1000 then
    { st with
      data := []
      modifiedCells := []
      selectedCells := []
      clipboard := none
      rowHeights := List.replicate (max newRows (minRows : Int)).toNat defaultRowHeight
      columnWidths := List.replicate (max newCols (minColumns : Int)).toNat defaultColumnWidth }
  else st

/-- `extendSelection` (script.js:794-797): drag-extend is `selectRange`. -/
def extendSelection (st : GridState) (r0 c0 r1 c1 : Nat) : GridState :=
  { st with selectedCells := selectRange r0 c0 r1 c1 }

/-- Escape key (script.js:933-946): clear the selection. -/
def escapeClear (st : GridState) : GridState :=
  { st with selectedCells := [] }

/-- The state-mutating operations of the widget, used to state invariants
over arbitrary operation sequences. -/
inductive GridOp where
  | addRows (count : Nat)
  | addColumns (count : Nat)
  | insertRow (rowIndex : Nat) (above : Bool)
  | deleteRow (rowIndex : Nat)
  | insertColumn (colIndex : Nat) (leftOf : Bool)
  | deleteColumn (colIndex : Nat)
  | resizeRow (index : Nat) (px : Int)
  | resizeColumn (index : Nat) (px : Int)
  | finishEditing (row col : Nat) (value : String)
  | clearSelected
  | copy
  | paste
  | select (row col : Nat) (ctrl shiftK : Bool)
  | selectRow (rowIndex : Nat) (ctrl : Bool)
  | selectColumn (colIndex : Nat) (ctrl : Bool)
  | extendSelection (r0 c0 r1 c1 : Nat)
  | escape
  | regenerate (newRows newCols : Int)
  | expandCheck

/-- Dispatch of one operation on the state. -/
def step (st : GridState) : GridOp → GridState
  | .addRows n => addRows st n
  | .addColumns n => addColumns st n
  | .insertRow k above => insertRow st k above
  | .deleteRow k => deleteRow st k
  | .insertColumn k leftOf => insertColumn st k leftOf
  | .deleteColumn k => deleteColumn st k
  | .resizeRow i px => resizeRow st i px
  | .resizeColumn i px => resizeColumn st i px
  | .finishEditing r c v => finishEditing st r c v
  | .clearSelected => clearSelectedCells st
  | .copy => copySelectedCells st
  | .paste => pasteClipboard st
  | .select r c ctrl shiftK => selectCell st r c ctrl shiftK
  | .selectRow k ctrl => selectRow st k ctrl
  | .selectColumn k ctrl => selectColumn st k ctrl
  | .extendSelection r0 c0 r1 c1 => extendSelection st r0 c0 r1 c1
  | .escape => escapeClear st
  | .regenerate r c => regenerateTable st r c
  | .expandCheck => checkAndExpandGrid st

/-- `getColumnName` (script.js:561-568): prepend `String.fromCharCode(65 +
index % 26)` and continue with `Math.floor(index / 26) - 1` while the index
is non-negative; the recursion below produces the same string (the loop
iteration for the current index appends the final character). -/
def getColumnName (index : Nat) : String :=
  if index < 26 then String.mk [Char.ofNat (65 + index % 26)]
  else getColumnName (index / 26 - 1) ++ String.mk [Char.ofNat (65 + index % 26)]
termination_by index
decreasing_by
  omega

/-- Modelled from the spec (section 6): the value of a letter string read as
bijective base-26 numerals, each letter `A`..`Z` being a digit `1`..`26`.
The spec states `getColumnLabel` is the inverse of this reading minus one. -/
def bijectiveBase26Value (cs : List Char) : Nat :=
  cs.foldl (fun acc c => acc * 26 + (c.toNat - 64)) 0

/-- Invariant of claim C10: the modified set is exactly the key set of the
sparse store, and every stored value is non-empty. -/
def dataModifiedSync (st : GridState) : Prop :=
  (∀ k, (mapGet st.data k).isSome ↔ k ∈ st.modifiedCells) ∧
  (∀ p ∈ st.data, p.2 ≠ "")

/-- All entries of both size arrays are positive (data-model invariant of
the spec, section 3). -/
def posSizes (st : GridState) : Prop :=
  (∀ x ∈ st.rowHeights, 0 < x) ∧ (∀ x ∈ st.columnWidths, 0 < x)

/-! ### Offset table lemmas -/

lemma offsetsFrom_length (start : Int) (l : List Int) :
    (offsetsFrom start l).length = l.length + 1 := by
  induction l generalizing start with
  | nil => rfl
  | cons h t ih => simp [offsetsFrom, ih]

lemma offsetsFrom_getD_zero (start : Int) (l : List Int) :
    (offsetsFrom start l).getD 0 0 = start := by
  cases l <;> rfl

lemma offsetsFrom_getD_succ (start : Int) (l : List Int) (i : Nat) (hi : i < l.length) :
    (offsetsFrom start l).getD (i + 1) 0 =
      (offsetsFrom start l).getD i 0 + l.getD i 0 := by
  induction l generalizing start i with
  | nil => simp at hi
  | cons h t ih =>
    cases i with
    | zero =>
      simp only [offsetsFrom, List.getD_cons_succ, List.getD_cons_zero]
      rw [offsetsFrom_getD_zero]
    | succ j =>
      simp only [offsetsFrom, List.getD_cons_succ]
      exact ih (start + h) j (by simpa using hi)

lemma offsetsFrom_mono_adj (start : Int) (l : List Int)
    (hnn : ∀ x ∈ l, 0 ≤ x) (i : Nat) (hi : i < l.length) :
    (offsetsFrom start l).getD i 0 ≤ (offsetsFrom start l).getD (i + 1) 0 := by
  rw [offsetsFrom_getD_succ start l i hi]
  have hx : l.getD i 0 = l[i] := List.getD_eq_getElem l 0 hi
  have := hnn l[i] (List.getElem_mem hi)
  omega

lemma offsetsFrom_mono (start : Int) (l : List Int) (hnn : ∀ x ∈ l, 0 ≤ x) :
    ∀ i j, i ≤ j → j ≤ l.length →
      (offsetsFrom start l).getD i 0 ≤ (offsetsFrom start l).getD j 0 := by
  intro i j hij hj
  induction j, hij using Nat.le_induction with
  | base => exact le_refl _
  | succ j hij ih =>
    exact le_trans (ih (by omega)) (offsetsFrom_mono_adj start l hnn j (by omega))

lemma offsetsFrom_strict_adj (start : Int) (l : List Int)
    (hpos : ∀ x ∈ l, 0 < x) (i : Nat) (hi : i < l.length) :
    (offsetsFrom start l).getD i 0 < (offsetsFrom start l).getD (i + 1) 0 := by
  rw [offsetsFrom_getD_succ start l i hi]
  have hx : l.getD i 0 = l[i] := List.getD_eq_getElem l 0 hi
  have := hpos l[i] (List.getElem_mem hi)
  omega

/-! ### Binary search lemmas -/

lemma bsearchGo_spec (t : List Int) (p : Int) (n : Nat)
    (mono : ∀ i j, i ≤ j → j ≤ n → t.getD i 0 ≤ t.getD j 0) :
    ∀ d left right, right - left ≤ d → left ≤ right → right ≤ n →
      (∀ i, i < left → t.getD i 0 ≤ p) →
      (∀ i, right ≤ i → i < n → p < t.getD i 0) →
      left ≤ bsearchGo t p left right ∧ bsearchGo t p left right ≤ right ∧
      (∀ i, i < bsearchGo t p left right → t.getD i 0 ≤ p) ∧
      (∀ i, bsearchGo t p left right ≤ i → i < n → p < t.getD i 0) := by
  intro d
  induction d with
  | zero =>
    intro left right hd hlr hrn hlow hhigh
    have h1 : left = right := by omega
    have heq : bsearchGo t p left right = left := by
      rw [bsearchGo]
      simp [h1]
    rw [heq]
    exact ⟨le_refl _, hlr, hlow, fun i hi h2 => hhigh i (by omega) h2⟩
  | succ d ih =>
    intro left right hd hlr hrn hlow hhigh
    by_cases h : left < right
    · by_cases hc : t.getD ((left + right) / 2) 0 ≤ p
      · have heq : bsearchGo t p left right = bsearchGo t p ((left + right) / 2 + 1) right := by
          rw [bsearchGo, dif_pos h, if_pos hc]
        have hlow' : ∀ i, i < (left + right) / 2 + 1 → t.getD i 0 ≤ p := fun i hi =>
          le_trans (mono i ((left + right) / 2) (by omega) (by omega)) hc
        obtain ⟨a, b, c, e⟩ := ih ((left + right) / 2 + 1) right (by omega) (by omega) hrn hlow' hhigh
        exact ⟨by rw [heq]; omega, by rw [heq]; omega, by rw [heq]; exact c, by rw [heq]; exact e⟩
      · push_neg at hc
        have heq : bsearchGo t p left right = bsearchGo t p left ((left + right) / 2) := by
          rw [bsearchGo, dif_pos h, if_neg (not_le.mpr hc)]
        have hhigh' : ∀ i, (left + right) / 2 ≤ i → i < n → p < t.getD i 0 := fun i h1 h2 =>
          lt_of_lt_of_le hc (mono ((left + right) / 2) i h1 (by omega))
        obtain ⟨a, b, c, e⟩ := ih left ((left + right) / 2) (by omega) (by omega) (by omega) hlow hhigh'
        exact ⟨by rw [heq]; exact a, by rw [heq]; omega, by rw [heq]; exact c, by rw [heq]; exact e⟩
    · have heq : bsearchGo t p left right = left := by
        rw [bsearchGo]
        simp [h]
      rw [heq]
      exact ⟨le_refl _, hlr, hlow, fun i hi h2 => hhigh i (by omega) h2⟩

lemma findByOffset_spec (sizes : List Int) (P : Int)
    (hpos : ∀ x ∈ sizes, 0 < x) (hne : sizes ≠ []) :
    findRowByOffset (calculateOffsets sizes) P < sizes.length ∧
    (P < 0 → findRowByOffset (calculateOffsets sizes) P = 0) ∧
    ((calculateOffsets sizes).getD sizes.length 0 ≤ P →
      findRowByOffset (calculateOffsets sizes) P = sizes.length - 1) ∧
    (∀ j, j < sizes.length →
      (calculateOffsets sizes).getD j 0 ≤ P → P < (calculateOffsets sizes).getD (j + 1) 0 →
      findRowByOffset (calculateOffsets sizes) P = j) := by
  set t := calculateOffsets sizes with ht
  set n := sizes.length with hn
  have hn1 : 1 ≤ n := List.length_pos.mpr hne
  have hlen : t.length = n + 1 := offsetsFrom_length 0 sizes
  have mono : ∀ i j, i ≤ j → j ≤ n → t.getD i 0 ≤ t.getD j 0 :=
    offsetsFrom_mono 0 sizes (fun x hx => le_of_lt (hpos x hx))
  have hzero : t.getD 0 0 = 0 := offsetsFrom_getD_zero 0 sizes
  obtain ⟨hL0, hLn, hLlow, hLhigh⟩ := bsearchGo_spec t P n mono n 0 n (by omega) (by omega)
    (le_refl n) (fun i hi => absurd hi (Nat.not_lt_zero i))
    (fun i h1 h2 => absurd (lt_of_le_of_lt h1 h2) (lt_irrefl n))
  have hr : findRowByOffset t P = bsearchGo t P 0 n - 1 := by
    rw [findRowByOffset, hlen, Nat.add_sub_cancel]
  refine ⟨by omega, ?_, ?_, ?_⟩
  · intro hP
    have hL : bsearchGo t P 0 n = 0 := by
      by_contra hne0
      have := hLlow 0 (by omega)
      omega
    omega
  · intro hP
    have hL : bsearchGo t P 0 n = n := by
      by_contra hne0
      have h1 := hLhigh (bsearchGo t P 0 n) (le_refl _) (by omega)
      have h2 := mono (bsearchGo t P 0 n) n (by omega) (le_refl n)
      omega
    omega
  · intro j hj hle hlt
    have hgt : j < bsearchGo t P 0 n := by
      by_contra hc
      have := hLhigh j (by omega) hj
      omega
    have hlt2 : bsearchGo t P 0 n ≤ j + 1 := by
      by_contra hc
      have := hLlow (j + 1) (by omega)
      omega
    omega

/-! ### Association list and set lemmas -/

lemma mapGet_append (d1 d2 : List (CellKey × String)) (k : CellKey) :
    mapGet (d1 ++ d2) k =
      (match mapGet d1 k with | some v => some v | none => mapGet d2 k) := by
  induction d1 with
  | nil => simp [mapGet]
  | cons p d ih => by_cases h : p.1 = k <;> simp [mapGet, h, ih]

lemma mapGet_cons (q : CellKey × String) (rest : List (CellKey × String)) (k0 : CellKey) :
    mapGet (q :: rest) k0 = if q.1 = k0 then some q.2 else mapGet rest k0 := rfl

lemma mapGet_overwrite (d : List (CellKey × String)) (k k' : CellKey) (v : String) :
    mapGet (d.map (fun p => if p.1 = k then (k, v) else p)) k' =
      if k' = k then (mapGet d k).map (fun _ => v) else mapGet d k' := by
  induction d with
  | nil => simp [mapGet]
  | cons p d ih =>
    simp only [List.map_cons, mapGet_cons]
    by_cases h2 : k' = k
    · subst h2
      by_cases h1 : p.1 = k' <;> simp [h1, ih]
    · by_cases h1 : p.1 = k
      · simp [h1, h2, ih, show ¬k = k' from fun hh => h2 hh.symm]
      · by_cases h3 : p.1 = k' <;> simp [h1, h2, h3, ih]

lemma mapGet_mapSet (d : List (CellKey × String)) (k k' : CellKey) (v : String) :
    mapGet (mapSet d k v) k' = if k' = k then some v else mapGet d k' := by
  unfold mapSet
  by_cases h : (mapGet d k).isSome
  · rw [if_pos h, mapGet_overwrite]
    by_cases h2 : k' = k
    · obtain ⟨v0, hv0⟩ := Option.isSome_iff_exists.mp h
      simp [h2, hv0]
    · simp [h2]
  · rw [if_neg h, mapGet_append]
    have hg : mapGet d k = none := Option.not_isSome_iff_eq_none.mp h
    by_cases h2 : k' = k
    · subst h2
      simp [hg, mapGet_cons]
    · cases hget : mapGet d k' <;>
        simp [hget, mapGet_cons, mapGet, h2, show ¬k = k' from fun hh => h2 hh.symm]

lemma mapGet_isSome_iff (d : List (CellKey × String)) (k : CellKey) :
    (mapGet d k).isSome ↔ k ∈ d.map Prod.fst := by
  induction d with
  | nil => simp [mapGet]
  | cons p d ih =>
    by_cases h : p.1 = k
    · simp [mapGet_cons, h]
    · rw [mapGet_cons, if_neg h, ih]
      simp [show k ≠ p.1 from fun hh => h hh.symm]

lemma mapGet_mapDelete (d : List (CellKey × String)) (k k' : CellKey) :
    mapGet (mapDelete d k) k' = if k' = k then none else mapGet d k' := by
  induction d with
  | nil => simp [mapGet, mapDelete]
  | cons p d ih =>
    have hdel : mapDelete (p :: d) k = if p.1 = k then mapDelete d k else p :: mapDelete d k := by
      by_cases h1 : p.1 = k <;> simp [mapDelete, List.filter_cons, h1]
    by_cases h2 : k' = k
    · subst h2
      by_cases h1 : p.1 = k' <;> simp [hdel, h1, ih, mapGet_cons]
    · by_cases h1 : p.1 = k
      · simp [hdel, h1, h2, ih, mapGet_cons, show ¬k = k' from fun hh => h2 hh.symm]
      · by_cases h3 : p.1 = k' <;> simp [hdel, h1, h2, h3, ih, mapGet_cons]

lemma mem_mapSet (d : List (CellKey × String)) (k : CellKey) (v : String)
    (p : CellKey × String) (hp : p ∈ mapSet d k v) : p ∈ d ∨ p = (k, v) := by
  unfold mapSet at hp
  by_cases h : (mapGet d k).isSome
  · rw [if_pos h] at hp
    obtain ⟨q, hq, hq2⟩ := List.mem_map.mp hp
    by_cases h2 : q.1 = k
    · right
      rw [← hq2]
      simp [h2]
    · left
      rw [← hq2]
      simpa [h2] using hq
  · rw [if_neg h] at hp
    rcases List.mem_append.mp hp with h1 | h1
    · exact Or.inl h1
    · right
      simpa using h1

lemma mem_mapDelete (d : List (CellKey × String)) (k : CellKey)
    (p : CellKey × String) (hp : p ∈ mapDelete d k) : p ∈ d :=
  (List.mem_filter.mp hp).1

lemma mem_setAdd (s : List CellKey) (k k' : CellKey) :
    k' ∈ setAdd s k ↔ k' ∈ s ∨ k' = k := by
  unfold setAdd
  by_cases h : k ∈ s
  · simp only [if_pos h]
    constructor
    · exact Or.inl
    · rintro (h1 | rfl)
      · exact h1
      · exact h
  · simp [if_neg h]

lemma mem_setDelete (s : List CellKey) (k k' : CellKey) :
    k' ∈ setDelete s k ↔ k' ∈ s ∧ k' ≠ k := by
  unfold setDelete
  simp [List.mem_filter]

lemma mapSet_of_get_none (d : List (CellKey × String)) (k : CellKey) (v : String)
    (h : mapGet d k = none) : mapSet d k v = d ++ [(k, v)] := by
  unfold mapSet
  simp [h]

lemma setAdd_of_not_mem (s : List CellKey) (k : CellKey) (h : k ∉ s) :
    setAdd s k = s ++ [k] := by
  unfold setAdd
  simp [h]

/-! ### forEach-loop lemmas -/

lemma mapGet_foldl_mapDelete (ks : List CellKey) (d : List (CellKey × String)) (k : CellKey) :
    mapGet (ks.foldl (fun d k => mapDelete d k) d) k =
      if k ∈ ks then none else mapGet d k := by
  induction ks generalizing d with
  | nil => simp
  | cons k0 ks ih =>
    simp only [List.foldl_cons]
    rw [ih]
    by_cases h1 : k ∈ ks <;> by_cases h2 : k = k0 <;>
      simp [h1, h2, mapGet_mapDelete]

lemma mem_foldl_mapDelete (ks : List CellKey) (d : List (CellKey × String))
    (p : CellKey × String) (hp : p ∈ ks.foldl (fun d k => mapDelete d k) d) : p ∈ d := by
  induction ks generalizing d with
  | nil => simpa using hp
  | cons k0 ks ih => exact mem_mapDelete d k0 p (ih (mapDelete d k0) hp)

lemma mem_foldl_setDelete (ks : List CellKey) (s : List CellKey) (k : CellKey) :
    k ∈ ks.foldl (fun s k => setDelete s k) s ↔ k ∈ s ∧ k ∉ ks := by
  induction ks generalizing s with
  | nil => simp
  | cons k0 ks ih =>
    simp only [List.foldl_cons]
    rw [ih, mem_setDelete]
    by_cases h2 : k = k0 <;> simp [h2]

lemma mapGet_isSome_rebuild_go (g : CellKey × String → Option (CellKey × String))
    (d : List (CellKey × String)) (acc : List (CellKey × String)) (k : CellKey) :
    (mapGet (d.foldl
        (fun acc p => match g p with | some q => mapSet acc q.1 q.2 | none => acc) acc) k).isSome
      ↔ (mapGet acc k).isSome ∨ ∃ p ∈ d, ∃ q, g p = some q ∧ q.1 = k := by
  induction d generalizing acc with
  | nil => simp
  | cons p d ih =>
    simp only [List.foldl_cons]
    rw [ih]
    cases hg : g p with
    | none => simp [hg]
    | some q =>
      by_cases h : k = q.1
      · subst h
        constructor
        · intro _
          exact Or.inr ⟨p, List.mem_cons_self p d, q, hg, rfl⟩
        · intro _
          left
          rw [mapGet_mapSet, if_pos rfl]
          rfl
      · simp only [hg, mapGet_mapSet, if_neg h]
        simp only [List.mem_cons]
        constructor
        · rintro (h1 | ⟨x, hx, r, hr, hr2⟩)
          · exact Or.inl h1
          · exact Or.inr ⟨x, Or.inr hx, r, hr, hr2⟩
        · rintro (h1 | ⟨x, hx | hx, r, hr, hr2⟩)
          · exact Or.inl h1
          · subst hx
            rw [hg] at hr
            cases hr
            exact absurd hr2.symm h
          · exact Or.inr ⟨x, hx, r, hr, hr2⟩

lemma mem_rebuild_go (g : CellKey × String → Option (CellKey × String))
    (d : List (CellKey × String)) (acc : List (CellKey × String))
    (p : CellKey × String)
    (hp : p ∈ d.foldl
        (fun acc q => match g q with | some r => mapSet acc r.1 r.2 | none => acc) acc) :
    p ∈ acc ∨ ∃ q ∈ d, ∃ r, g q = some r ∧ p.2 = r.2 := by
  induction d generalizing acc with
  | nil => exact Or.inl (by simpa using hp)
  | cons q d ih =>
    simp only [List.foldl_cons] at hp
    rcases ih _ hp with h1 | ⟨x, hx, r, hr, hr2⟩
    · cases hg : g q with
      | none =>
        rw [hg] at h1
        exact Or.inl h1
      | some r =>
        rw [hg] at h1
        rcases mem_mapSet _ _ _ _ h1 with h2 | h2
        · exact Or.inl h2
        · exact Or.inr ⟨q, List.mem_cons_self q d, r, hg, by rw [h2]⟩
    · exact Or.inr ⟨x, List.mem_cons_of_mem q hx, r, hr, hr2⟩

lemma mem_setRebuild_go (g : CellKey → Option CellKey)
    (s : List CellKey) (acc : List CellKey) (k : CellKey) :
    k ∈ s.foldl (fun acc x => match g x with | some k' => setAdd acc k' | none => acc) acc ↔
      k ∈ acc ∨ ∃ x ∈ s, g x = some k := by
  induction s generalizing acc with
  | nil => simp
  | cons x s ih =>
    simp only [List.foldl_cons]
    rw [ih]
    cases hg : g x with
    | none => simp [hg]
    | some k0 =>
      rw [mem_setAdd]
      simp only [List.mem_cons]
      constructor
      · rintro ((h1 | h1) | ⟨y, hy, hgy⟩)
        · exact Or.inl h1
        · exact Or.inr ⟨x, Or.inl rfl, by rw [hg, h1]⟩
        · exact Or.inr ⟨y, Or.inr hy, hgy⟩
      · rintro (h1 | ⟨y, rfl | hy, hgy⟩)
        · exact Or.inl (Or.inl h1)
        · rw [hg] at hgy
          cases hgy
          exact Or.inl (Or.inr rfl)
        · exact Or.inr ⟨y, hy, hgy⟩

lemma mapGet_isSome_mapRebuild (g : CellKey × String → Option (CellKey × String))
    (d : List (CellKey × String)) (k : CellKey) :
    (mapGet (mapRebuild g d) k).isSome ↔ ∃ p ∈ d, ∃ q, g p = some q ∧ q.1 = k := by
  unfold mapRebuild
  rw [mapGet_isSome_rebuild_go]
  simp [mapGet]

lemma mem_mapRebuild (g : CellKey × String → Option (CellKey × String))
    (d : List (CellKey × String)) (p : CellKey × String) (hp : p ∈ mapRebuild g d) :
    ∃ q ∈ d, ∃ r, g q = some r ∧ p.2 = r.2 := by
  unfold mapRebuild at hp
  rcases mem_rebuild_go g d [] p hp with h1 | h1
  · simp at h1
  · exact h1

lemma mem_setRebuild (g : CellKey → Option CellKey) (s : List CellKey) (k : CellKey) :
    k ∈ setRebuild g s ↔ ∃ x ∈ s, g x = some k := by
  unfold setRebuild
  rw [mem_setRebuild_go]
  simp

/-! ### Exact rebuild under distinct keys -/

lemma rebuild_go_eq (g : CellKey × String → Option (CellKey × String))
    (d : List (CellKey × String)) :
    ∀ acc : List (CellKey × String),
      (d.filterMap (fun p => (g p).map Prod.fst)).Nodup →
      (∀ k ∈ d.filterMap (fun p => (g p).map Prod.fst), mapGet acc k = none) →
      d.foldl (fun acc p => match g p with | some q => mapSet acc q.1 q.2 | none => acc) acc =
        acc ++ d.filterMap g := by
  induction d with
  | nil => intro acc _ _; simp
  | cons p d ih =>
    intro acc hnodup hdisj
    cases hg : g p with
    | none =>
      simp only [List.foldl_cons, hg]
      rw [ih acc (by simpa [List.filterMap_cons, hg] using hnodup)
        (by simpa [List.filterMap_cons, hg] using hdisj)]
      simp [List.filterMap_cons, hg]
    | some q =>
      simp only [List.foldl_cons, hg]
      have hhead : (p :: d).filterMap (fun p => (g p).map Prod.fst) =
          q.1 :: d.filterMap (fun p => (g p).map Prod.fst) := by
        simp [List.filterMap_cons, hg]
      rw [hhead] at hnodup hdisj
      have hq : mapGet acc q.1 = none := hdisj q.1 (List.mem_cons_self _ _)
      rw [mapSet_of_get_none acc q.1 q.2 hq]
      rw [ih (acc ++ [(q.1, q.2)]) (List.Nodup.of_cons hnodup) ?disj]
      · simp [List.filterMap_cons, hg, List.append_assoc]
      case disj =>
        intro k hk
        rw [mapGet_append]
        rw [hdisj k (List.mem_cons_of_mem _ hk)]
        have hne : ¬q.1 = k := fun hh =>
          (List.nodup_cons.mp hnodup).1 (hh ▸ hk)
        simp [mapGet_cons, mapGet, hne]

lemma setRebuild_go_eq (g : CellKey → Option CellKey) (s : List CellKey) :
    ∀ acc : List CellKey,
      (s.filterMap g).Nodup →
      (∀ k ∈ s.filterMap g, k ∉ acc) →
      s.foldl (fun acc x => match g x with | some k' => setAdd acc k' | none => acc) acc =
        acc ++ s.filterMap g := by
  induction s with
  | nil => intro acc _ _; simp
  | cons x s ih =>
    intro acc hnodup hdisj
    cases hg : g x with
    | none =>
      simp only [List.foldl_cons, hg]
      rw [ih acc (by simpa [List.filterMap_cons, hg] using hnodup)
        (by simpa [List.filterMap_cons, hg] using hdisj)]
      simp [List.filterMap_cons, hg]
    | some k0 =>
      simp only [List.foldl_cons, hg]
      have hhead : (x :: s).filterMap g = k0 :: s.filterMap g := by
        simp [List.filterMap_cons, hg]
      rw [hhead] at hnodup hdisj
      rw [setAdd_of_not_mem acc k0 (hdisj k0 (List.mem_cons_self _ _))]
      rw [ih (acc ++ [k0]) (List.Nodup.of_cons hnodup) ?disj]
      · simp [List.filterMap_cons, hg, List.append_assoc]
      case disj =>
        intro k hk
        simp only [List.mem_append, List.mem_singleton]
        rintro (h1 | rfl)
        · exact hdisj k (List.mem_cons_of_mem _ hk) h1
        · exact (List.nodup_cons.mp hnodup).1 hk

lemma mapRebuild_eq_filterMap (g : CellKey × String → Option (CellKey × String))
    (d : List (CellKey × String))
    (h : (d.filterMap (fun p => (g p).map Prod.fst)).Nodup) :
    mapRebuild g d = d.filterMap g := by
  unfold mapRebuild
  rw [rebuild_go_eq g d [] h (fun k _ => rfl)]
  simp

lemma setRebuild_eq_filterMap (g : CellKey → Option CellKey) (s : List CellKey)
    (h : (s.filterMap g).Nodup) :
    setRebuild g s = s.filterMap g := by
  unfold setRebuild
  rw [setRebuild_go_eq g s [] h (fun k _ hk => by simp at hk)]
  simp

/-! ### Shape lemmas for the operations -/

lemma selectCell_eq_update (st : GridState) (r c : Nat) (a b : Bool) :
    ∃ sel, selectCell st r c a b = { st with selectedCells := sel } := by
  simp only [selectCell]
  repeat' split
  all_goals exact ⟨_, rfl⟩

lemma selectRow_eq_update (st : GridState) (k : Nat) (a : Bool) :
    ∃ sel, selectRow st k a = { st with selectedCells := sel } :=
  ⟨_, rfl⟩

lemma selectColumn_eq_update (st : GridState) (k : Nat) (a : Bool) :
    ∃ sel, selectColumn st k a = { st with selectedCells := sel } :=
  ⟨_, rfl⟩

lemma copySelectedCells_eq_update (st : GridState) :
    ∃ cb, copySelectedCells st = { st with clipboard := cb } :=
  ⟨_, rfl⟩

lemma finishEditing_eq_update (st : GridState) (r c : Nat) (v : String) :
    ∃ d m, finishEditing st r c v = { st with data := d, modifiedCells := m } := by
  unfold finishEditing
  split
  · exact ⟨_, _, rfl⟩
  · exact ⟨_, _, rfl⟩

lemma clearSelectedCells_eq_update (st : GridState) :
    ∃ d m, clearSelectedCells st = { st with data := d, modifiedCells := m } :=
  ⟨_, _, rfl⟩

lemma paste_fold_eq_update (clip : List (CellKey × String)) (a b : Nat) :
    ∀ st0 : GridState, ∃ d m,
      clip.foldl (fun acc item =>
        if item.2 ≠ "" then
          { acc with data := mapSet acc.data (a, b) item.2
                     modifiedCells := setAdd acc.modifiedCells (a, b) }
        else acc) st0 = { st0 with data := d, modifiedCells := m } := by
  induction clip with
  | nil => exact fun st0 => ⟨st0.data, st0.modifiedCells, rfl⟩
  | cons item clip ih =>
    intro st0
    simp only [List.foldl_cons]
    by_cases h : item.2 ≠ ""
    · obtain ⟨d, m, hdm⟩ := ih { st0 with data := mapSet st0.data (a, b) item.2
                                          modifiedCells := setAdd st0.modifiedCells (a, b) }
      rw [if_pos h, hdm]
      exact ⟨d, m, rfl⟩
    · obtain ⟨d, m, hdm⟩ := ih st0
      rw [if_neg h, hdm]
      exact ⟨d, m, rfl⟩

lemma pasteClipboard_eq_update (st : GridState) :
    ∃ d m, pasteClipboard st = { st with data := d, modifiedCells := m } := by
  unfold pasteClipboard
  split
  · exact ⟨st.data, st.modifiedCells, rfl⟩
  · split
    · exact ⟨st.data, st.modifiedCells, rfl⟩
    · exact paste_fold_eq_update _ _ _ st

/-! ### C8: selection range symmetry -/

lemma mem_selectRange (r0 c0 r1 c1 r c : Nat) :
    (r, c) ∈ selectRange r0 c0 r1 c1 ↔
      min r0 r1 ≤ r ∧ r ≤ max r0 r1 ∧ min c0 c1 ≤ c ∧ c ≤ max c0 c1 := by
  simp only [selectRange, List.mem_flatMap, List.mem_map, List.mem_range'_1, Prod.mk.injEq]
  constructor
  · rintro ⟨a, ⟨ha1, ha2⟩, b, ⟨hb1, hb2⟩, rfl, rfl⟩
    omega
  · rintro ⟨h1, h2, h3, h4⟩
    exact ⟨r, ⟨h1, by omega⟩, c, ⟨h3, by omega⟩, rfl, rfl⟩

/-- C8: `selectRange(r0,c0,r1,c1)` and `selectRange(r1,c1,r0,c0)` produce
identical selection sets (here even identical insertion-ordered lists), and
both are exactly the inclusive rectangle
`[min(r0,r1), max(r0,r1)] x [min(c0,c1), max(c0,c1)]`. -/
theorem C8_selectRange_symmetry (r0 c0 r1 c1 : Nat) :
    selectRange r0 c0 r1 c1 = selectRange r1 c1 r0 c0 ∧
    ∀ r c : Nat, (r, c) ∈ selectRange r0 c0 r1 c1 ↔
      min r0 r1 ≤ r ∧ r ≤ max r0 r1 ∧ min c0 c1 ≤ c ∧ c ≤ max c0 c1 := by
  constructor
  · simp only [selectRange]
    rw [Nat.min_comm r1 r0, Nat.max_comm r1 r0, Nat.min_comm c1 c0, Nat.max_comm c1 c0]
  · exact fun r c => mem_selectRange r0 c0 r1 c1 r c

/-! ### C9: bijective base-26 column labels -/

lemma char_toNat_65_add : ∀ k, k < 26 → (Char.ofNat (65 + k)).toNat = 65 + k := by
  decide

lemma bijectiveBase26Value_append (a : List Char) (c : Char) :
    bijectiveBase26Value (a ++ [c]) = bijectiveBase26Value a * 26 + (c.toNat - 64) := by
  simp [bijectiveBase26Value, List.foldl_append]

lemma getColumnName_spec (n : Nat) :
    (∀ c ∈ (getColumnName n).data, 65 ≤ c.toNat ∧ c.toNat ≤ 90) ∧
      bijectiveBase26Value (getColumnName n).data = n + 1 := by
  induction n using Nat.strong_induction_on with
  | _ n ih =>
    by_cases h : n < 26
    · rw [getColumnName, if_pos h]
      have hm : n % 26 = n := Nat.mod_eq_of_lt h
      have hc := char_toNat_65_add (n % 26) (by omega)
      constructor
      · intro c hcm
        have hcc : c = Char.ofNat (65 + n % 26) := by simpa using hcm
        subst hcc
        omega
      · simp only [bijectiveBase26Value, List.foldl_cons, List.foldl_nil]
        omega
    · rw [getColumnName, if_neg h]
      obtain ⟨ihb, ihv⟩ := ih (n / 26 - 1) (by omega)
      have hc := char_toNat_65_add (n % 26) (by omega)
      constructor
      · intro c hcm
        rw [String.data_append] at hcm
        rcases List.mem_append.mp hcm with h1 | h1
        · exact ihb c h1
        · have hcc : c = Char.ofNat (65 + n % 26) := by simpa using h1
          subst hcc
          omega
      · rw [String.data_append]
        show bijectiveBase26Value ((getColumnName (n / 26 - 1)).data ++ [Char.ofNat (65 + n % 26)]) = n + 1
        rw [bijectiveBase26Value_append, ihv, hc]
        omega

/-- C9: `getColumnName` is the bijective base-26 letter encoding with no zero
digit: index 0 maps to "A", 25 to "Z", 26 to "AA", every produced character
is a letter `A`..`Z` (code points 65..90), and reading the result as
bijective base-26 digits 1..26 gives back the index plus one, i.e. the
function is the inverse of that reading minus one. -/
theorem C9_getColumnName_bijective_base26 :
    getColumnName 0 = "A" ∧ getColumnName 25 = "Z" ∧ getColumnName 26 = "AA" ∧
    ∀ n : Nat, (∀ c ∈ (getColumnName n).data, 65 ≤ c.toNat ∧ c.toNat ≤ 90) ∧
      bijectiveBase26Value (getColumnName n).data = n + 1 :=
  ⟨by simp [getColumnName], by simp [getColumnName], by simp [getColumnName],
    getColumnName_spec⟩

/-! ### C1: binary search over the offset table -/

lemma findColumnByOffset_eq (t : List Int) (P : Int) :
    findColumnByOffset t P = findRowByOffset t P := rfl

/-- C1: for every offset table built from a non-empty size array of positive
entries and every pixel value `P`, `findRowByOffset` / `findColumnByOffset`
return an index that is non-negative (the codomain is a natural number, and
the clamped `Math.max(0, left-1)` result is stated as an integer inequality)
and strictly below the size-array length; the result is 0 when `P` lies
below `offset[0]`, the last valid index when `P` is at or beyond the table's
last entry, and the unique `j` with `offset[j] <= P < offset[j+1]` whenever
such a `j` exists. -/
theorem C1_find_by_offset_binary_search (sizes : List Int) (P : Int)
    (hpos : ∀ x ∈ sizes, 0 < x) (hne : sizes ≠ []) :
    ((0 : Int) ≤ (findRowByOffset (calculateOffsets sizes) P : Int) ∧
      findRowByOffset (calculateOffsets sizes) P < sizes.length ∧
      findColumnByOffset (calculateOffsets sizes) P < sizes.length) ∧
    (P < 0 →
      findRowByOffset (calculateOffsets sizes) P = 0 ∧
      findColumnByOffset (calculateOffsets sizes) P = 0) ∧
    ((calculateOffsets sizes).getD sizes.length 0 ≤ P →
      findRowByOffset (calculateOffsets sizes) P = sizes.length - 1 ∧
      findColumnByOffset (calculateOffsets sizes) P = sizes.length - 1) ∧
    (∀ j, j < sizes.length →
      (calculateOffsets sizes).getD j 0 ≤ P →
      P < (calculateOffsets sizes).getD (j + 1) 0 →
      findRowByOffset (calculateOffsets sizes) P = j ∧
      findColumnByOffset (calculateOffsets sizes) P = j) := by
  obtain ⟨h1, h2, h3, h4⟩ := findByOffset_spec sizes P hpos hne
  refine ⟨⟨Int.natCast_nonneg _, h1, by rw [findColumnByOffset_eq]; exact h1⟩,
    fun hP => ⟨h2 hP, by rw [findColumnByOffset_eq]; exact h2 hP⟩,
    fun hP => ⟨h3 hP, by rw [findColumnByOffset_eq]; exact h3 hP⟩,
    fun j hj ha hb => ⟨h4 j hj ha hb, by rw [findColumnByOffset_eq]; exact h4 j hj ha hb⟩⟩

/-- Witness for C1 at the concrete size array `[30, 30, 30]` and pixel 45:
the offset table is `[0, 30, 60, 90]` and index 1 is the unique bucket with
`offset[1] = 30 <= 45 < 60 = offset[2]`. -/
theorem C1_witness :
    findRowByOffset (calculateOffsets [30, 30, 30]) 45 = 1 ∧
    findColumnByOffset (calculateOffsets [30, 30, 30]) 45 = 1 :=
  (C1_find_by_offset_binary_search [30, 30, 30] 45 (by decide) (by decide)).2.2.2 1
    (by decide) (by simp [calculateOffsets, offsetsFrom]) (by simp [calculateOffsets, offsetsFrom])

/-! ### C2: offset table invariants after every size mutation -/

lemma mem_spliceInsert (l : List Int) (i : Nat) (x y : Int)
    (h : y ∈ spliceInsert l i x) : y ∈ l ∨ y = x := by
  unfold spliceInsert at h
  rcases List.mem_append.mp h with h1 | h1
  · exact Or.inl (List.mem_of_mem_take h1)
  · rcases List.mem_cons.mp h1 with h2 | h2
    · exact Or.inr h2
    · exact Or.inl (List.mem_of_mem_drop h2)

lemma mem_spliceDelete (l : List Int) (i : Nat) (y : Int)
    (h : y ∈ spliceDelete l i) : y ∈ l := by
  unfold spliceDelete at h
  rcases List.mem_append.mp h with h1 | h1
  · exact List.mem_of_mem_take h1
  · exact List.mem_of_mem_drop h1

lemma posSizes_step (st : GridState) (op : GridOp) (h : posSizes st) :
    posSizes (step st op) := by
  obtain ⟨hr, hc⟩ := h
  have haddR : ∀ st0 n, posSizes st0 → posSizes (addRows st0 n) := by
    rintro st0 n ⟨hr0, hc0⟩
    refine ⟨fun x hx => ?_, hc0⟩
    simp only [addRows] at hx
    rcases List.mem_append.mp hx with h1 | h1
    · exact hr0 x h1
    · rw [List.eq_of_mem_replicate h1]
      norm_num [defaultRowHeight]
  have haddC : ∀ st0 n, posSizes st0 → posSizes (addColumns st0 n) := by
    rintro st0 n ⟨hr0, hc0⟩
    refine ⟨hr0, fun x hx => ?_⟩
    simp only [addColumns] at hx
    rcases List.mem_append.mp hx with h1 | h1
    · exact hc0 x h1
    · rw [List.eq_of_mem_replicate h1]
      norm_num [defaultColumnWidth]
  cases op with
  | addRows n => exact haddR st n ⟨hr, hc⟩
  | addColumns n => exact haddC st n ⟨hr, hc⟩
  | insertRow k above =>
    refine ⟨fun x hx => ?_, hc⟩
    simp only [step, insertRow] at hx
    rcases mem_spliceInsert _ _ _ _ hx with h1 | h1
    · exact hr x h1
    · rw [h1]
      norm_num [defaultRowHeight]
  | deleteRow k =>
    simp only [step, deleteRow]
    split
    · exact ⟨hr, hc⟩
    · exact ⟨fun x hx => hr x (mem_spliceDelete _ _ _ hx), hc⟩
  | insertColumn k leftOf =>
    refine ⟨hr, fun x hx => ?_⟩
    simp only [step, insertColumn] at hx
    rcases mem_spliceInsert _ _ _ _ hx with h1 | h1
    · exact hc x h1
    · rw [h1]
      norm_num [defaultColumnWidth]
  | deleteColumn k =>
    simp only [step, deleteColumn]
    split
    · exact ⟨hr, hc⟩
    · exact ⟨hr, fun x hx => hc x (mem_spliceDelete _ _ _ hx)⟩
  | resizeRow i px =>
    refine ⟨fun x hx => ?_, hc⟩
    simp only [step, resizeRow] at hx
    rcases List.mem_or_eq_of_mem_set hx with h1 | h1
    · exact hr x h1
    · rw [h1]
      exact lt_of_lt_of_le (by norm_num) (le_max_left 20 px)
  | resizeColumn i px =>
    refine ⟨hr, fun x hx => ?_⟩
    simp only [step, resizeColumn] at hx
    rcases List.mem_or_eq_of_mem_set hx with h1 | h1
    · exact hc x h1
    · rw [h1]
      exact lt_of_lt_of_le (by norm_num) (le_max_left 30 px)
  | finishEditing r c v =>
    obtain ⟨d, m, hdm⟩ := finishEditing_eq_update st r c v
    show posSizes (finishEditing st r c v)
    rw [hdm]
    exact ⟨hr, hc⟩
  | clearSelected =>
    obtain ⟨d, m, hdm⟩ := clearSelectedCells_eq_update st
    show posSizes (clearSelectedCells st)
    rw [hdm]
    exact ⟨hr, hc⟩
  | copy =>
    obtain ⟨cb, hcb⟩ := copySelectedCells_eq_update st
    show posSizes (copySelectedCells st)
    rw [hcb]
    exact ⟨hr, hc⟩
  | paste =>
    obtain ⟨d, m, hdm⟩ := pasteClipboard_eq_update st
    show posSizes (pasteClipboard st)
    rw [hdm]
    exact ⟨hr, hc⟩
  | select r c ctrl shiftK =>
    obtain ⟨sel, hsel⟩ := selectCell_eq_update st r c ctrl shiftK
    show posSizes (selectCell st r c ctrl shiftK)
    rw [hsel]
    exact ⟨hr, hc⟩
  | selectRow k ctrl =>
    obtain ⟨sel, hsel⟩ := selectRow_eq_update st k ctrl
    show posSizes (selectRow st k ctrl)
    rw [hsel]
    exact ⟨hr, hc⟩
  | selectColumn k ctrl =>
    obtain ⟨sel, hsel⟩ := selectColumn_eq_update st k ctrl
    show posSizes (selectColumn st k ctrl)
    rw [hsel]
    exact ⟨hr, hc⟩
  | extendSelection r0 c0 r1 c1 => exact ⟨hr, hc⟩
  | escape => exact ⟨hr, hc⟩
  | regenerate newRows newCols =>
    simp only [step, regenerateTable]
    split
    · constructor
      · intro x hx
        rw [List.eq_of_mem_replicate hx]
        norm_num [defaultRowHeight]
      · intro x hx
        rw [List.eq_of_mem_replicate hx]
        norm_num [defaultColumnWidth]
    · exact ⟨hr, hc⟩
  | expandCheck =>
    simp only [step, checkAndExpandGrid]
    split
    · split
      · exact haddC _ _ (haddR st 50 ⟨hr, hc⟩)
      · exact haddR st 50 ⟨hr, hc⟩
    · split
      · exact haddC _ _ ⟨hr, hc⟩
      · exact ⟨hr, hc⟩

/-- C2: sizes stay positive under every mutating operation, and for any size
array with non-negative entries the recomputed offset table has length equal
to the size-array length plus one, starts at `offset[0] = 0`, satisfies
`offset[i+1] - offset[i] = size[i]` for every `i`, and is non-decreasing. -/
theorem C2_offsets_invariant :
    (∀ (st : GridState) (op : GridOp), posSizes st → posSizes (step st op)) ∧
    (∀ sizes : List Int, (∀ x ∈ sizes, 0 ≤ x) →
      (calculateOffsets sizes).length = sizes.length + 1 ∧
      (calculateOffsets sizes).getD 0 0 = 0 ∧
      (∀ i < sizes.length,
        (calculateOffsets sizes).getD (i + 1) 0 - (calculateOffsets sizes).getD i 0 =
          sizes.getD i 0) ∧
      (∀ i j, i ≤ j → j ≤ sizes.length →
        (calculateOffsets sizes).getD i 0 ≤ (calculateOffsets sizes).getD j 0)) := by
  refine ⟨posSizes_step, fun sizes hnn => ⟨offsetsFrom_length 0 sizes,
    offsetsFrom_getD_zero 0 sizes, fun i hi => ?_, offsetsFrom_mono 0 sizes hnn⟩⟩
  rw [calculateOffsets, offsetsFrom_getD_succ 0 sizes i hi]
  omega

/-- Witness for C2: positivity is preserved when 5 rows are appended to the
fresh grid, and the offset table of the concrete size array `[40, 40]` is
`[0, 40, 80]`. -/
theorem C2_witness :
    posSizes (step initState (GridOp.addRows 5)) ∧
    (calculateOffsets [40, 40]).length = 3 ∧
    (calculateOffsets [40, 40]).getD 1 0 - (calculateOffsets [40, 40]).getD 0 0 = 40 := by
  have h1 := C2_offsets_invariant.1 initState (GridOp.addRows 5)
    (by constructor <;> (intro x hx; rw [List.eq_of_mem_replicate hx]) <;> decide)
  have h2 := C2_offsets_invariant.2 [40, 40] (by decide)
  exact ⟨h1, h2.1, h2.2.2.1 0 (by decide)⟩

/-! ### C4: grid growth versus the configured maximum -/

/-- C4 (refuted by the code): the growth check does not keep the row count at
or below the configured maximum.  From 9999 rows (at most `maxRows = 10000`,
and reachable, e.g. `regenerateTable` accepts a row count of 9999) with the
visible end row inside the 10-row margin, the guard `length < maxRows` passes
and `addRows(50)` runs unclamped, leaving 10049 rows — 49 past the maximum.
The column check has the same unclamped batch of 20. -/
theorem C4_growth_overshoots_max :
    ({ initState with rowHeights := List.replicate 9999 defaultRowHeight, visibleEndRow := 9990 } : GridState).rowHeights.length ≤ maxRows ∧
    (checkAndExpandGrid { initState with rowHeights := List.replicate 9999 defaultRowHeight, visibleEndRow := 9990 }).rowHeights.length = 10049 ∧
    maxRows <
      (checkAndExpandGrid { initState with rowHeights := List.replicate 9999 defaultRowHeight, visibleEndRow := 9990 }).rowHeights.length := by
  have h : (checkAndExpandGrid { initState with rowHeights := List.replicate 9999 defaultRowHeight, visibleEndRow := 9990 }).rowHeights.length = 10049 := by
    norm_num [checkAndExpandGrid, addRows, addColumns, initState, maxRows, maxColumns,
      minColumns, minRows]
  refine ⟨by norm_num [maxRows], h, by rw [h]; norm_num [maxRows]⟩

/-! ### C3: paste semantics -/

/-- C3 (refuted by the code; the spec scenario is the evident intent): the
relative-offset paste does not happen.  Copy the 2x2 block at (0,0)-(1,1)
holding A,B,C,D (selection produced by `selectRange(0,0,1,1)`), point-select
(5,5), paste: `pasteClipboard` (script.js:1072-1075) destructures each
entry's `origRow`/`origCol` and never uses them, setting
`newRow = startRow; newCol = startCol`, so all four values are written to the
anchor (5,5) in clipboard order — the anchor ends holding "D", and (5,6),
(6,5), (6,6) stay empty, instead of A at (5,5), B at (5,6), C at (6,5) and
D at (6,6). -/
theorem C3_paste_collapses_to_anchor :
    mapGet (pasteClipboard (selectCell (copySelectedCells
        { initState with
          data := [((0,0),"A"), ((0,1),"B"), ((1,0),"C"), ((1,1),"D")]
          modifiedCells := [(0,0), (0,1), (1,0), (1,1)]
          selectedCells := selectRange 0 0 1 1 }) 5 5 false false)).data (5, 5) = some "D" ∧
    mapGet (pasteClipboard (selectCell (copySelectedCells
        { initState with
          data := [((0,0),"A"), ((0,1),"B"), ((1,0),"C"), ((1,1),"D")]
          modifiedCells := [(0,0), (0,1), (1,0), (1,1)]
          selectedCells := selectRange 0 0 1 1 }) 5 5 false false)).data (5, 6) = none ∧
    mapGet (pasteClipboard (selectCell (copySelectedCells
        { initState with
          data := [((0,0),"A"), ((0,1),"B"), ((1,0),"C"), ((1,1),"D")]
          modifiedCells := [(0,0), (0,1), (1,0), (1,1)]
          selectedCells := selectRange 0 0 1 1 }) 5 5 false false)).data (6, 5) = none ∧
    mapGet (pasteClipboard (selectCell (copySelectedCells
        { initState with
          data := [((0,0),"A"), ((0,1),"B"), ((1,0),"C"), ((1,1),"D")]
          modifiedCells := [(0,0), (0,1), (1,0), (1,1)]
          selectedCells := selectRange 0 0 1 1 }) 5 5 false false)).data (6, 6) = none := by
  decide

/-! ### C5: shift-extend anchoring -/

/-- C5 (counterexample to the claim as stated): select (5,5) plainly — the
stored anchor of the claim is (5,5), and no later non-additive point select
happens — then shift-select (2,2), then shift-select (3,7).  The code
anchors the final rectangle at the selection set's first inserted element,
which after the middle step is (2,2), yielding rows 2-3 x cols 2-7; the
rectangle anchored at the stored anchor (5,5) would be rows 3-5 x cols 5-7,
which does not even contain the selected cell (2,2). -/
theorem C5_counterexample :
    (selectCell (selectCell (selectCell initState 5 5 false false) 2 2 false true)
        3 7 false true).selectedCells = selectRange 2 2 3 7 ∧
    (2, 2) ∈ (selectCell (selectCell (selectCell initState 5 5 false false) 2 2 false true)
        3 7 false true).selectedCells ∧
    (2, 2) ∉ selectRange 5 5 3 7 := by
  decide

/-- C5 (amended): for every non-empty selection set, a shift-extend select of
(r, c) produces the inclusive rectangle anchored at the selection set's
first element in insertion order — the coordinate the code reads via
`Array.from(this.selectedCells)[0]` — which equals the stored anchor only
immediately after a non-additive point select. -/
theorem C5_shift_extend_anchors_at_first_element (st : GridState) (r c ar ac : Nat)
    (ctrl : Bool) (h : st.selectedCells.head? = some (ar, ac)) :
    (selectCell st r c ctrl true).selectedCells = selectRange ar ac r c := by
  have hne : st.selectedCells.isEmpty = false := by
    cases hsel : st.selectedCells
    · rw [hsel] at h
      simp at h
    · rfl
  simp [selectCell, hne, h]

/-- Witness for the amended C5: a selection whose first element is (5,5),
shift-extended to (2,2), becomes the rectangle rows 2-5 x cols 2-5. -/
theorem C5_witness :
    (selectCell { initState with selectedCells := [(5, 5)] } 2 2 false true).selectedCells =
      selectRange 5 5 2 2 :=
  C5_shift_extend_anchors_at_first_element { initState with selectedCells := [(5, 5)] }
    2 2 5 5 false rfl

/-! ### C6: the grid never loses its last row or column -/

lemma sizes_len_step (st : GridState) (op : GridOp)
    (h1 : 1 ≤ st.rowHeights.length) (h2 : 1 ≤ st.columnWidths.length) :
    1 ≤ (step st op).rowHeights.length ∧ 1 ≤ (step st op).columnWidths.length := by
  have haddR : ∀ (st0 : GridState) n, 1 ≤ st0.rowHeights.length →
      1 ≤ (addRows st0 n).rowHeights.length := by
    intro st0 n h0
    simp only [addRows, List.length_append]
    omega
  have haddC : ∀ (st0 : GridState) n, 1 ≤ st0.columnWidths.length →
      1 ≤ (addColumns st0 n).columnWidths.length := by
    intro st0 n h0
    simp only [addColumns, List.length_append]
    omega
  cases op with
  | addRows n => exact ⟨haddR st n h1, h2⟩
  | addColumns n => exact ⟨h1, haddC st n h2⟩
  | insertRow k above =>
    refine ⟨?_, h2⟩
    simp only [step, insertRow, spliceInsert, List.length_append, List.length_cons]
    omega
  | deleteRow k =>
    simp only [step, deleteRow]
    split
    · exact ⟨h1, h2⟩
    · refine ⟨?_, h2⟩
      simp only [spliceDelete, List.length_append, List.length_take, List.length_drop]
      omega
  | insertColumn k leftOf =>
    refine ⟨h1, ?_⟩
    simp only [step, insertColumn, spliceInsert, List.length_append, List.length_cons]
    omega
  | deleteColumn k =>
    simp only [step, deleteColumn]
    split
    · exact ⟨h1, h2⟩
    · refine ⟨h1, ?_⟩
      simp only [spliceDelete, List.length_append, List.length_take, List.length_drop]
      omega
  | resizeRow i px =>
    refine ⟨?_, h2⟩
    simp only [step, resizeRow, List.length_set]
    exact h1
  | resizeColumn i px =>
    refine ⟨h1, ?_⟩
    simp only [step, resizeColumn, List.length_set]
    exact h2
  | finishEditing r c v =>
    obtain ⟨d, m, hdm⟩ := finishEditing_eq_update st r c v
    show 1 ≤ (finishEditing st r c v).rowHeights.length ∧
      1 ≤ (finishEditing st r c v).columnWidths.length
    rw [hdm]
    exact ⟨h1, h2⟩
  | clearSelected =>
    obtain ⟨d, m, hdm⟩ := clearSelectedCells_eq_update st
    show 1 ≤ (clearSelectedCells st).rowHeights.length ∧
      1 ≤ (clearSelectedCells st).columnWidths.length
    rw [hdm]
    exact ⟨h1, h2⟩
  | copy =>
    obtain ⟨cb, hcb⟩ := copySelectedCells_eq_update st
    show 1 ≤ (copySelectedCells st).rowHeights.length ∧
      1 ≤ (copySelectedCells st).columnWidths.length
    rw [hcb]
    exact ⟨h1, h2⟩
  | paste =>
    obtain ⟨d, m, hdm⟩ := pasteClipboard_eq_update st
    show 1 ≤ (pasteClipboard st).rowHeights.length ∧
      1 ≤ (pasteClipboard st).columnWidths.length
    rw [hdm]
    exact ⟨h1, h2⟩
  | select r c ctrl shiftK =>
    obtain ⟨sel, hsel⟩ := selectCell_eq_update st r c ctrl shiftK
    show 1 ≤ (selectCell st r c ctrl shiftK).rowHeights.length ∧
      1 ≤ (selectCell st r c ctrl shiftK).columnWidths.length
    rw [hsel]
    exact ⟨h1, h2⟩
  | selectRow k ctrl => exact ⟨h1, h2⟩
  | selectColumn k ctrl => exact ⟨h1, h2⟩
  | extendSelection r0 c0 r1 c1 => exact ⟨h1, h2⟩
  | escape => exact ⟨h1, h2⟩
  | regenerate newRows newCols =>
    simp only [step, regenerateTable]
    split
    · rename_i hcond
      constructor
      · simp only [List.length_replicate]
        omega
      · simp only [List.length_replicate]
        omega
    · exact ⟨h1, h2⟩
  | expandCheck =>
    simp only [step, checkAndExpandGrid]
    split
    · split
      · constructor
        · show 1 ≤ (addColumns (addRows st 50) 20).rowHeights.length
          simp only [addColumns]
          exact haddR st 50 h1
        · exact haddC _ 20 (by simp only [addRows]; exact h2)
      · exact ⟨haddR st 50 h1, by simp only [addRows]; exact h2⟩
    · split
      · exact ⟨by simp only [addColumns]; exact h1, haddC st 20 h2⟩
      · exact ⟨h1, h2⟩

/-- C6: `deleteRow` with exactly one row remaining and `deleteColumn` with
exactly one column remaining are no-ops on the entire state (size arrays,
sparse store, modified set, selection and clipboard all unchanged), and every
operation preserves having at least one row and at least one column, so any
sequence of operations keeps the grid at a minimum of a 1x1 extent. -/
theorem C6_min_one_row_one_column :
    (∀ (st : GridState) (k : Nat), st.rowHeights.length = 1 → deleteRow st k = st) ∧
    (∀ (st : GridState) (k : Nat), st.columnWidths.length = 1 → deleteColumn st k = st) ∧
    (∀ (st : GridState) (ops : List GridOp),
      1 ≤ st.rowHeights.length → 1 ≤ st.columnWidths.length →
      1 ≤ (ops.foldl step st).rowHeights.length ∧
      1 ≤ (ops.foldl step st).columnWidths.length) := by
  refine ⟨?_, ?_, ?_⟩
  · intro st k h
    unfold deleteRow
    rw [if_pos (by omega)]
  · intro st k h
    unfold deleteColumn
    rw [if_pos (by omega)]
  · intro st ops
    induction ops generalizing st with
    | nil => exact fun h1 h2 => ⟨h1, h2⟩
    | cons op ops ih =>
      intro h1 h2
      obtain ⟨h1', h2'⟩ := sizes_len_step st op h1 h2
      exact ih (step st op) h1' h2'

/-- Witness for C6: deleting row 0 of a one-row grid and column 0 of a
one-column grid are exact no-ops, and a delete-heavy operation sequence on
the fresh grid keeps at least one row and one column. -/
theorem C6_witness :
    deleteRow { initState with rowHeights := [defaultRowHeight] } 0 =
      { initState with rowHeights := [defaultRowHeight] } ∧
    deleteColumn { initState with columnWidths := [defaultColumnWidth] } 0 =
      { initState with columnWidths := [defaultColumnWidth] } ∧
    (1 ≤ (([GridOp.deleteRow 0, GridOp.deleteColumn 0].foldl step
        initState)).rowHeights.length ∧
      1 ≤ (([GridOp.deleteRow 0, GridOp.deleteColumn 0].foldl step
        initState)).columnWidths.length) :=
  ⟨C6_min_one_row_one_column.1 _ 0 rfl,
    C6_min_one_row_one_column.2.1 _ 0 rfl,
    C6_min_one_row_one_column.2.2 initState [GridOp.deleteRow 0, GridOp.deleteColumn 0]
      (by simp [initState, minRows]) (by simp [initState, minColumns])⟩

/-! ### C7: insert/delete round trip -/

lemma filterMap_some_eq_map {α β : Type} (f : α → β) (l : List α) :
    l.filterMap (fun x => some (f x)) = l.map f := by
  induction l with
  | nil => rfl
  | cons a l ih => simp [List.filterMap_cons, ih]

lemma filterMap_congr_mem {α β : Type} (l : List α) (f g : α → Option β)
    (h : ∀ x ∈ l, f x = g x) : l.filterMap f = l.filterMap g := by
  induction l with
  | nil => rfl
  | cons a l ih =>
    simp only [List.filterMap_cons, h a (List.mem_cons_self a l)]
    rw [ih (fun x hx => h x (List.mem_cons_of_mem a hx))]

lemma shiftRowUp_fst_ne (k : Nat) (key : CellKey) : (shiftRowUp k key).1 ≠ k := by
  rcases key with ⟨r, c⟩
  unfold shiftRowUp
  split <;> simp_all <;> omega

lemma shiftRowDown_shiftRowUp (k : Nat) (key : CellKey) :
    shiftRowDown k (shiftRowUp k key) = key := by
  rcases key with ⟨r, c⟩
  by_cases h : r ≥ k
  · have h2 : r + 1 > k := by omega
    simp [shiftRowUp, shiftRowDown, h, h2]
  · have h2 : ¬(r > k) := by omega
    simp [shiftRowUp, shiftRowDown, h, h2]

lemma shiftRowUp_injective (k : Nat) : Function.Injective (shiftRowUp k) := by
  intro a b hab
  have h := congrArg (shiftRowDown k) hab
  rwa [shiftRowDown_shiftRowUp, shiftRowDown_shiftRowUp] at h

lemma shiftColUp_snd_ne (k : Nat) (key : CellKey) : (shiftColUp k key).2 ≠ k := by
  rcases key with ⟨r, c⟩
  unfold shiftColUp
  split <;> simp_all <;> omega

lemma shiftColDown_shiftColUp (k : Nat) (key : CellKey) :
    shiftColDown k (shiftColUp k key) = key := by
  rcases key with ⟨r, c⟩
  by_cases h : c ≥ k
  · have h2 : c + 1 > k := by omega
    simp [shiftColUp, shiftColDown, h, h2]
  · have h2 : ¬(c > k) := by omega
    simp [shiftColUp, shiftColDown, h, h2]

lemma shiftColUp_injective (k : Nat) : Function.Injective (shiftColUp k) := by
  intro a b hab
  have h := congrArg (shiftColDown k) hab
  rwa [shiftColDown_shiftColUp, shiftColDown_shiftColUp] at h

lemma spliceInsert_cons (a : Int) (l : List Int) (k : Nat) (x : Int) :
    spliceInsert (a :: l) (k + 1) x = a :: spliceInsert l k x := by
  simp [spliceInsert]

lemma spliceDelete_cons (a : Int) (l : List Int) (k : Nat) :
    spliceDelete (a :: l) (k + 1) = a :: spliceDelete l k := by
  simp [spliceDelete]

lemma splice_roundtrip (l : List Int) (k : Nat) (x : Int) (hk : k <= l.length) :
    spliceDelete (spliceInsert l k x) k = l := by
  induction l generalizing k with
  | nil =>
    have hz : k = 0 := by simpa using hk
    subst hz
    rfl
  | cons a l ih =>
    cases k with
    | zero => rfl
    | succ k =>
      rw [spliceInsert_cons, spliceDelete_cons, ih k (by simpa using hk)]

lemma filterMap_some_self {a : Type} (l : List a) : l.filterMap (fun x => some x) = l := by
  induction l with
  | nil => rfl
  | cons x l ih => simp [List.filterMap_cons, ih]

lemma mapRebuild_up (d : List (CellKey × String)) (f : CellKey → CellKey)
    (hinj : Function.Injective f) (hdk : (d.map Prod.fst).Nodup) :
    mapRebuild (fun p => some (f p.1, p.2)) d = d.map (fun p => (f p.1, p.2)) := by
  rw [mapRebuild_eq_filterMap]
  · exact filterMap_some_eq_map _ d
  · simp only [Option.map_some']
    rw [filterMap_some_eq_map (fun p : CellKey × String => f p.1) d]
    have hmm : (d.map fun p : CellKey × String => f p.1) = (d.map Prod.fst).map f := by
      rw [List.map_map]
      rfl
    rw [hmm]
    exact hdk.map hinj

lemma setRebuild_up (s : List CellKey) (f : CellKey → CellKey)
    (hinj : Function.Injective f) (hs : s.Nodup) :
    setRebuild (fun x => some (f x)) s = s.map f := by
  rw [setRebuild_eq_filterMap]
  · exact filterMap_some_eq_map f s
  · rw [filterMap_some_eq_map f s]
    exact hs.map hinj

lemma rebuild_roundtrip_data (d : List (CellKey × String)) (f : CellKey → CellKey)
    (g : CellKey × String → Option (CellKey × String))
    (hinj : Function.Injective f)
    (hgf : ∀ p : CellKey × String, g (f p.1, p.2) = some p)
    (hdk : (d.map Prod.fst).Nodup) :
    mapRebuild g (mapRebuild (fun p => some (f p.1, p.2)) d) = d := by
  rw [mapRebuild_up d f hinj hdk]
  have hkeys : ∀ p : CellKey × String,
      ((fun q => (g q).map Prod.fst) ∘ fun p : CellKey × String => (f p.1, p.2)) p =
        some p.1 := by
    intro p
    show (g (f p.1, p.2)).map Prod.fst = some p.1
    rw [hgf p]
    rfl
  rw [mapRebuild_eq_filterMap]
  · rw [List.filterMap_map]
    have h6 : List.filterMap (g ∘ fun p : CellKey × String => (f p.1, p.2)) d =
        List.filterMap (fun p => some p) d :=
      filterMap_congr_mem d _ _ (fun p _ => hgf p)
    rw [h6, filterMap_some_self]
  · rw [List.filterMap_map]
    have h7 : List.filterMap
        ((fun q => (g q).map Prod.fst) ∘ fun p : CellKey × String => (f p.1, p.2)) d =
        List.filterMap (fun p => some p.1) d :=
      filterMap_congr_mem d _ _ (fun p _ => hkeys p)
    rw [h7, filterMap_some_eq_map Prod.fst d]
    exact hdk

lemma rebuild_roundtrip_set (s : List CellKey) (f : CellKey → CellKey)
    (g : CellKey → Option CellKey)
    (hinj : Function.Injective f)
    (hgf : ∀ x : CellKey, g (f x) = some x)
    (hs : s.Nodup) :
    setRebuild g (setRebuild (fun x => some (f x)) s) = s := by
  rw [setRebuild_up s f hinj hs]
  have h6 : List.filterMap (g ∘ f) s = List.filterMap (fun x => some x) s :=
    filterMap_congr_mem s _ _ (fun x _ => hgf x)
  rw [setRebuild_eq_filterMap]
  · rw [List.filterMap_map, h6, filterMap_some_self]
  · rw [List.filterMap_map, h6, filterMap_some_self]
    exact hs

lemma roundtrip_data_row (d : List (CellKey × String)) (k : Nat)
    (hdk : (d.map Prod.fst).Nodup) :
    mapRebuild (fun p => if p.1.1 = k then none else some (shiftRowDown k p.1, p.2))
      (mapRebuild (fun p => some (shiftRowUp k p.1, p.2)) d) = d := by
  refine rebuild_roundtrip_data d (shiftRowUp k) _ (shiftRowUp_injective k) ?_ hdk
  intro p
  show (if (shiftRowUp k p.1).1 = k then none
    else some (shiftRowDown k (shiftRowUp k p.1), p.2)) = some p
  rw [if_neg (shiftRowUp_fst_ne k p.1), shiftRowDown_shiftRowUp]

lemma roundtrip_modified_row (s : List CellKey) (k : Nat) (hs : s.Nodup) :
    setRebuild (fun x => if x.1 = k then none else some (shiftRowDown k x))
      (setRebuild (fun x => some (shiftRowUp k x)) s) = s := by
  refine rebuild_roundtrip_set s (shiftRowUp k) _ (shiftRowUp_injective k) ?_ hs
  intro x
  show (if (shiftRowUp k x).1 = k then none else some (shiftRowDown k (shiftRowUp k x))) =
    some x
  rw [if_neg (shiftRowUp_fst_ne k x), shiftRowDown_shiftRowUp]

lemma roundtrip_data_col (d : List (CellKey × String)) (k : Nat)
    (hdk : (d.map Prod.fst).Nodup) :
    mapRebuild (fun p => if p.1.2 = k then none else some (shiftColDown k p.1, p.2))
      (mapRebuild (fun p => some (shiftColUp k p.1, p.2)) d) = d := by
  refine rebuild_roundtrip_data d (shiftColUp k) _ (shiftColUp_injective k) ?_ hdk
  intro p
  show (if (shiftColUp k p.1).2 = k then none
    else some (shiftColDown k (shiftColUp k p.1), p.2)) = some p
  rw [if_neg (shiftColUp_snd_ne k p.1), shiftColDown_shiftColUp]

lemma roundtrip_modified_col (s : List CellKey) (k : Nat) (hs : s.Nodup) :
    setRebuild (fun x => if x.2 = k then none else some (shiftColDown k x))
      (setRebuild (fun x => some (shiftColUp k x)) s) = s := by
  refine rebuild_roundtrip_set s (shiftColUp k) _ (shiftColUp_injective k) ?_ hs
  intro x
  show (if (shiftColUp k x).2 = k then none else some (shiftColDown k (shiftColUp k x))) =
    some x
  rw [if_neg (shiftColUp_snd_ne k x), shiftColDown_shiftColUp]

/-- C7: inserting a row at index `k` (insert-above at a valid index of a grid
with duplicate-free store keys and modified set) and then deleting the row at
index `k` restores the original row-size array, the original sparse store
entry for entry (rows at or past `k` are shifted up and back down), and the
original modified set; symmetrically for columns. -/
theorem C7_insert_delete_roundtrip (st : GridState) (k : Nat)
    (hdk : (st.data.map Prod.fst).Nodup) (hmk : st.modifiedCells.Nodup)
    (hkr : k ≤ st.rowHeights.length) (hner : st.rowHeights ≠ [])
    (hkc : k ≤ st.columnWidths.length) (hnec : st.columnWidths ≠ []) :
    ((deleteRow (insertRow st k true) k).rowHeights = st.rowHeights ∧
      (deleteRow (insertRow st k true) k).data = st.data ∧
      (deleteRow (insertRow st k true) k).modifiedCells = st.modifiedCells) ∧
    ((deleteColumn (insertColumn st k true) k).columnWidths = st.columnWidths ∧
      (deleteColumn (insertColumn st k true) k).data = st.data ∧
      (deleteColumn (insertColumn st k true) k).modifiedCells = st.modifiedCells) := by
  have hlenr : st.rowHeights.length ≥ 1 := List.length_pos.mpr hner
  have hlenc : st.columnWidths.length ≥ 1 := List.length_pos.mpr hnec
  constructor
  · have hguard : ¬(insertRow st k true).rowHeights.length ≤ 1 := by
      simp only [insertRow, if_pos rfl, spliceInsert, List.length_append, List.length_cons,
        List.length_take, List.length_drop]
      omega
    simp only [insertRow, if_pos rfl, deleteRow]
    rw [if_neg (by simpa only [insertRow, if_pos rfl] using hguard)]
    refine ⟨?_, ?_, ?_⟩
    · exact splice_roundtrip st.rowHeights k defaultRowHeight hkr
    · exact roundtrip_data_row st.data k hdk
    · exact roundtrip_modified_row st.modifiedCells k hmk
  · have hguard : ¬(insertColumn st k true).columnWidths.length ≤ 1 := by
      simp only [insertColumn, if_pos rfl, spliceInsert, List.length_append, List.length_cons,
        List.length_take, List.length_drop]
      omega
    simp only [insertColumn, if_pos rfl, deleteColumn]
    rw [if_neg (by simpa only [insertColumn, if_pos rfl] using hguard)]
    refine ⟨?_, ?_, ?_⟩
    · exact splice_roundtrip st.columnWidths k defaultColumnWidth hkc
    · exact roundtrip_data_col st.data k hdk
    · exact roundtrip_modified_col st.modifiedCells k hmk

/-- Witness for C7 at a concrete 3x2 grid holding "A" at (0,0) and "B" at
(2,1): insert a row at index 1, delete the row at index 1, and the size
array, store and modified set are restored exactly. -/
theorem C7_witness :
    (deleteRow (insertRow { initState with
        rowHeights := [40, 40, 40]
        columnWidths := [120, 120]
        data := [((0, 0), "A"), ((2, 1), "B")]
        modifiedCells := [(0, 0), (2, 1)] } 1 true) 1).data =
      [((0, 0), "A"), ((2, 1), "B")] ∧
    (deleteRow (insertRow { initState with
        rowHeights := [40, 40, 40]
        columnWidths := [120, 120]
        data := [((0, 0), "A"), ((2, 1), "B")]
        modifiedCells := [(0, 0), (2, 1)] } 1 true) 1).rowHeights = [40, 40, 40] := by
  have h := C7_insert_delete_roundtrip { initState with
      rowHeights := [40, 40, 40]
      columnWidths := [120, 120]
      data := [((0, 0), "A"), ((2, 1), "B")]
      modifiedCells := [(0, 0), (2, 1)] } 1
    (by decide) (by decide) (by decide) (by decide) (by decide) (by decide)
  exact ⟨h.1.2.1, h.1.1⟩

/-! ### C10: modified set equals the key set of the store -/

lemma mapRebuild_congr (g1 g2 : CellKey × String → Option (CellKey × String))
    (h : ∀ p, g1 p = g2 p) (d : List (CellKey × String)) :
    mapRebuild g1 d = mapRebuild g2 d := by
  unfold mapRebuild
  congr 1
  funext acc p
  rw [h p]

lemma syncParts_set (d : List (CellKey × String)) (m : List CellKey) (k : CellKey)
    (v : String) (hv : v ≠ "")
    (h1 : ∀ k', (mapGet d k').isSome ↔ k' ∈ m) (h2 : ∀ p ∈ d, p.2 ≠ "") :
    (∀ k', (mapGet (mapSet d k v) k').isSome ↔ k' ∈ setAdd m k) ∧
    (∀ p ∈ mapSet d k v, p.2 ≠ "") := by
  constructor
  · intro k'
    rw [mapGet_mapSet, mem_setAdd]
    by_cases hk : k' = k
    · simp [hk]
    · simp [hk, h1 k']
  · intro p hp
    rcases mem_mapSet d k v p hp with h | h
    · exact h2 p h
    · rw [h]
      exact hv

lemma syncParts_delete (d : List (CellKey × String)) (m : List CellKey) (k : CellKey)
    (h1 : ∀ k', (mapGet d k').isSome ↔ k' ∈ m) (h2 : ∀ p ∈ d, p.2 ≠ "") :
    (∀ k', (mapGet (mapDelete d k) k').isSome ↔ k' ∈ setDelete m k) ∧
    (∀ p ∈ mapDelete d k, p.2 ≠ "") := by
  constructor
  · intro k'
    rw [mapGet_mapDelete, mem_setDelete]
    by_cases hk : k' = k
    · simp [hk]
    · simp [hk, h1 k']
  · intro p hp
    exact h2 p (mem_mapDelete d k p hp)

lemma syncParts_rebuild (d : List (CellKey × String)) (m : List CellKey)
    (kf : CellKey → Option CellKey)
    (h1 : ∀ k', (mapGet d k').isSome ↔ k' ∈ m) (h2 : ∀ p ∈ d, p.2 ≠ "") :
    (∀ key, (mapGet (mapRebuild (fun p => (kf p.1).map (fun k' => (k', p.2))) d) key).isSome ↔
      key ∈ setRebuild kf m) ∧
    (∀ p ∈ mapRebuild (fun p => (kf p.1).map (fun k' => (k', p.2))) d, p.2 ≠ "") := by
  constructor
  · intro key
    rw [mapGet_isSome_mapRebuild, mem_setRebuild]
    constructor
    · rintro ⟨p, hp, q, hq, hq1⟩
      cases hkf : kf p.1 with
      | none =>
        rw [hkf] at hq
        exact absurd hq (by simp)
      | some k0 =>
        rw [hkf] at hq
        simp only [Option.map_some'] at hq
        rw [Option.some_inj] at hq
        subst hq
        refine ⟨p.1, (h1 p.1).mp ((mapGet_isSome_iff d p.1).mpr
          (List.mem_map_of_mem Prod.fst hp)), ?_⟩
        rw [hkf]
        exact congrArg some hq1
    · rintro ⟨x, hx, hgx⟩
      have hxs : (mapGet d x).isSome := (h1 x).mpr hx
      rw [mapGet_isSome_iff] at hxs
      obtain ⟨p, hp, hpx⟩ := List.mem_map.mp hxs
      refine ⟨p, hp, (key, p.2), ?_, rfl⟩
      rw [hpx, hgx]
      rfl
  · intro p hp
    obtain ⟨q, hq, r, hr, hpr⟩ := mem_mapRebuild _ _ _ hp
    cases hkf : kf q.1 with
    | none =>
      rw [hkf] at hr
      exact absurd hr (by simp)
    | some k0 =>
      rw [hkf] at hr
      simp only [Option.map_some'] at hr
      rw [Option.some_inj] at hr
      rw [hpr, ← hr]
      exact h2 q hq

lemma sync_paste_fold (clip : List (CellKey × String)) (a b : Nat) :
    ∀ st0 : GridState, dataModifiedSync st0 →
      dataModifiedSync (clip.foldl (fun acc item =>
        if item.2 ≠ "" then
          { acc with data := mapSet acc.data (a, b) item.2
                     modifiedCells := setAdd acc.modifiedCells (a, b) }
        else acc) st0) := by
  induction clip with
  | nil => exact fun st0 h => h
  | cons item clip ih =>
    intro st0 h
    simp only [List.foldl_cons]
    by_cases hv : item.2 ≠ ""
    · rw [if_pos hv]
      refine ih _ ?_
      obtain ⟨a1, a2⟩ := syncParts_set st0.data st0.modifiedCells (a, b) item.2 hv h.1 h.2
      exact ⟨a1, a2⟩
    · rw [if_neg hv]
      exact ih st0 h

lemma sync_step (st : GridState) (op : GridOp) (h : dataModifiedSync st) :
    dataModifiedSync (step st op) := by
  cases op with
  | addRows n => exact h
  | addColumns n => exact h
  | insertRow k above =>
    show dataModifiedSync (insertRow st k above)
    simp only [insertRow]
    have hcongr : mapRebuild
        (fun p => Option.map (fun k' => (k', p.2))
          (some (shiftRowUp (if above then k else k + 1) p.1))) st.data =
        mapRebuild
          (fun p => some (shiftRowUp (if above then k else k + 1) p.1, p.2)) st.data :=
      mapRebuild_congr _ _ (fun p => rfl) st.data
    obtain ⟨a1, a2⟩ := syncParts_rebuild st.data st.modifiedCells
      (fun x => some (shiftRowUp (if above then k else k + 1) x)) h.1 h.2
    rw [hcongr] at a1 a2
    exact ⟨a1, a2⟩
  | deleteRow k =>
    show dataModifiedSync (deleteRow st k)
    simp only [deleteRow]
    split
    · exact h
    · have hcongr : mapRebuild
          (fun p => Option.map (fun k' => (k', p.2))
            (if p.1.1 = k then none else some (shiftRowDown k p.1))) st.data =
          mapRebuild
            (fun p => if p.1.1 = k then none else some (shiftRowDown k p.1, p.2)) st.data := by
        refine mapRebuild_congr _ _ (fun p => ?_) st.data
        by_cases hp : p.1.1 = k <;> simp [hp]
      obtain ⟨a1, a2⟩ := syncParts_rebuild st.data st.modifiedCells
        (fun x => if x.1 = k then none else some (shiftRowDown k x)) h.1 h.2
      rw [hcongr] at a1 a2
      exact ⟨a1, a2⟩
  | insertColumn k leftOf =>
    show dataModifiedSync (insertColumn st k leftOf)
    simp only [insertColumn]
    have hcongr : mapRebuild
        (fun p => Option.map (fun k' => (k', p.2))
          (some (shiftColUp (if leftOf then k else k + 1) p.1))) st.data =
        mapRebuild
          (fun p => some (shiftColUp (if leftOf then k else k + 1) p.1, p.2)) st.data :=
      mapRebuild_congr _ _ (fun p => rfl) st.data
    obtain ⟨a1, a2⟩ := syncParts_rebuild st.data st.modifiedCells
      (fun x => some (shiftColUp (if leftOf then k else k + 1) x)) h.1 h.2
    rw [hcongr] at a1 a2
    exact ⟨a1, a2⟩
  | deleteColumn k =>
    show dataModifiedSync (deleteColumn st k)
    simp only [deleteColumn]
    split
    · exact h
    · have hcongr : mapRebuild
          (fun p => Option.map (fun k' => (k', p.2))
            (if p.1.2 = k then none else some (shiftColDown k p.1))) st.data =
          mapRebuild
            (fun p => if p.1.2 = k then none else some (shiftColDown k p.1, p.2)) st.data := by
        refine mapRebuild_congr _ _ (fun p => ?_) st.data
        by_cases hp : p.1.2 = k <;> simp [hp]
      obtain ⟨a1, a2⟩ := syncParts_rebuild st.data st.modifiedCells
        (fun x => if x.2 = k then none else some (shiftColDown k x)) h.1 h.2
      rw [hcongr] at a1 a2
      exact ⟨a1, a2⟩
  | resizeRow i px => exact h
  | resizeColumn i px => exact h
  | finishEditing r c v =>
    show dataModifiedSync (finishEditing st r c v)
    simp only [finishEditing]
    split
    · rename_i hv
      obtain ⟨a1, a2⟩ := syncParts_set st.data st.modifiedCells (r, c) v hv h.1 h.2
      exact ⟨a1, a2⟩
    · obtain ⟨a1, a2⟩ := syncParts_delete st.data st.modifiedCells (r, c) h.1 h.2
      exact ⟨a1, a2⟩
  | clearSelected =>
    constructor
    · intro k
      show (mapGet (st.selectedCells.foldl (fun d k => mapDelete d k) st.data) k).isSome ↔
        k ∈ st.selectedCells.foldl (fun m k => setDelete m k) st.modifiedCells
      rw [mapGet_foldl_mapDelete, mem_foldl_setDelete]
      by_cases hk : k ∈ st.selectedCells
      · simp [hk]
      · simp [hk, h.1 k]
    · intro p hp
      exact h.2 p (mem_foldl_mapDelete st.selectedCells st.data p hp)
  | copy => exact h
  | paste =>
    show dataModifiedSync (pasteClipboard st)
    unfold pasteClipboard
    split
    · exact h
    · split
      · exact h
      · exact sync_paste_fold _ _ _ st h
  | select r c ctrl shiftK =>
    obtain ⟨sel, hsel⟩ := selectCell_eq_update st r c ctrl shiftK
    show dataModifiedSync (selectCell st r c ctrl shiftK)
    rw [hsel]
    exact h
  | selectRow k ctrl => exact h
  | selectColumn k ctrl => exact h
  | extendSelection r0 c0 r1 c1 => exact h
  | escape => exact h
  | regenerate newRows newCols =>
    show dataModifiedSync (regenerateTable st newRows newCols)
    unfold regenerateTable
    split
    · exact ⟨fun k => by simp [mapGet], fun p hp => by simp at hp⟩
    · exact h
  | expandCheck =>
    show dataModifiedSync (checkAndExpandGrid st)
    simp only [checkAndExpandGrid]
    split
    · split
      · exact h
      · exact h
    · split
      · exact h
      · exact h

/-- C10: the modified-cell set always equals the key set of the sparse data
map, and every stored value is non-empty — so a coordinate is flagged
modified exactly when it currently holds a non-empty value.  The invariant
is preserved by every operation sequence (edit commit, clear-selected,
paste, row/column insert and delete, table regeneration, and all the
remaining operations, which touch neither structure). -/
theorem C10_modified_set_matches_data (st : GridState) (ops : List GridOp)
    (h : dataModifiedSync st) : dataModifiedSync (ops.foldl step st) := by
  induction ops generalizing st with
  | nil => exact h
  | cons op ops ih => exact ih (step st op) (sync_step st op h)

/-- Witness for C10: starting from the fresh grid (empty store, empty
modified set), committing an edit, deleting a row and clearing keeps the
store keys and the modified set equal. -/
theorem C10_witness :
    dataModifiedSync (List.foldl step initState
      [GridOp.finishEditing 2 3 "x", GridOp.deleteRow 1, GridOp.clearSelected]) :=
  C10_modified_set_matches_data initState
    [GridOp.finishEditing 2 3 "x", GridOp.deleteRow 1, GridOp.clearSelected]
    ⟨fun k => by simp [initState, mapGet], fun p hp => by simp [initState] at hp⟩
